import Mathlib

/-!
Shallow embedding of the DocBotApp backend record layer
(src/DocBotApp/backend): the auth throttle (api/auth.py), the draft-session
manager (data/report_manager.py), the report archive (data/report_store.py),
the user directory (data/user_auth.py) and the contacts store
(data/contacts.py), together with proofs of the behavioural properties the
specification states about them.

Modelling conventions:
- Python floats used as timestamps are modelled as rationals (`Rat`).
- Filesystem paths are modelled as lists of path components
  (`Path(a) / b` is list append, `Path(p).name` is the last component).
- Per-user file-backed state is threaded explicitly: each operation takes the
  relevant state value and returns the updated one.  A raised Python
  exception is an `Except` error value.
- `uuid4().hex` and `datetime.utcnow()` results are taken as arguments.
-/

namespace DocBot

/-! ## api/auth.py: rate limiter and login lockout -/

def RATE_WINDOW_SECONDS : Rat := 60

def RATE_MAX_PER_WINDOW : Nat := 5

def LOCKOUT_WINDOW_SECONDS : Rat := 600

def LOCKOUT_THRESHOLD : Nat := 5

def LOCKOUT_DURATION_SECONDS : Rat := 600

/-- One entry of the `_RATE_LIMITS` dict: the recorded timestamps for a key.
`_check_rate_limit` returns `(allowed, stored-after)`: on rejection the dict
entry is left as it was (the pruned list is not written back, since the
exception is raised before the assignment). -/
def check_rate_limit (now : Rat) (entries : List Rat) : Bool × List Rat :=
  let window_start := now - RATE_WINDOW_SECONDS
  let kept := entries.filter (fun t => decide (window_start ≤ t))
  if RATE_MAX_PER_WINDOW ≤ kept.length then (false, entries)
  else (true, kept ++ [now])

/-- Run a sequence of `_check_rate_limit` calls for one key, collecting the
verdict of each call and threading the stored timestamp list. -/
def run_rate_calls (times : List Rat) (entries : List Rat) : List Bool × List Rat :=
  match times with
  | [] => ([], entries)
  | t :: rest =>
    let (ok, entries1) := check_rate_limit t entries
    let (oks, entries2) := run_rate_calls rest entries1
    (ok :: oks, entries2)

/-- The `(address, phone)`-keyed lockout state: the `_FAILED_LOGINS` entry
(absent is the empty list) and the `_LOGIN_LOCKS` entry. -/
structure LockoutState where
  failures : List Rat
  locked_until : Option Rat
deriving DecidableEq

/-- `is_login_locked`, returning the verdict and the state after the call.
Note the source guards with Python truthiness (`if not locked_until`), so a
stored lock timestamp of exactly `0` is treated like an absent lock. -/
def is_login_locked (now : Rat) (st : LockoutState) : Bool × LockoutState :=
  match st.locked_until with
  | none => (false, st)
  | some u =>
    if u = 0 then (false, st)
    else if u ≤ now then (false, { failures := [], locked_until := none })
    else (true, st)

/-- `record_login_failure`: prune failures older than the lockout window,
append the new one, and set a lock once the pruned count reaches the
threshold. -/
def record_login_failure (now : Rat) (st : LockoutState) : LockoutState :=
  let window_start := now - LOCKOUT_WINDOW_SECONDS
  let kept := st.failures.filter (fun t => decide (window_start ≤ t))
  let entries := kept ++ [now]
  { failures := entries
    locked_until :=
      if LOCKOUT_THRESHOLD ≤ entries.length then some (now + LOCKOUT_DURATION_SECONDS)
      else st.locked_until }

/-- `clear_login_failures`: pop both dict entries for the key. -/
def clear_login_failures (_st : LockoutState) : LockoutState :=
  { failures := [], locked_until := none }

/-- Fold `record_login_failure` over a list of failure times. -/
def record_failures (times : List Rat) (st : LockoutState) : LockoutState :=
  times.foldl (fun s t => record_login_failure t s) st

/-! ## data/storage.py: per-user path helpers

`user_dir` and `user_temp_dir` follow the storage.py in the source tree; the
report-layout helpers used by report_store.py are not present in the source
tree (only their callers are) and are modelled from the spec. -/

/-- `config.STORAGE_DIR`, as an abstract path root. -/
def storage_root : List String := ["STORAGE_DIR"]

def user_dir (user_id : Int) : List String :=
  storage_root ++ [toString user_id]

def user_temp_dir (user_id : Int) : List String :=
  user_dir user_id ++ ["temp"]

/-- Modelled from the spec: `user_reports_dir` is absent from the provided
sources; section 6 gives each user a report index file and one content
directory per archived report, kept under a reports area of the user
directory. -/
def user_reports_dir (user_id : Int) : List String :=
  user_dir user_id ++ ["reports"]

/-- Modelled from the spec: the per-report content directory of
`user_report_data_dir(user_id, report_id)`, one directory per archived
report. -/
def user_report_data_dir (user_id : Int) (report_id : String) : List String :=
  user_reports_dir user_id ++ [report_id]

/-- The photos subdirectory `report_dir / "photos"` used by `save_report`. -/
def user_report_photos_dir (user_id : Int) (report_id : String) : List String :=
  user_report_data_dir user_id report_id ++ ["photos"]

/-- `Path(p).name`: the final path component. -/
def path_name (p : List String) : String := p.getLastD ("")

/-- `dir` is an ancestor of (or equal to) `p`: every path under a directory
starts with the directory's components. -/
def path_in_dir (dir p : List String) : Prop := dir <+: p

instance (dir p : List String) : Decidable (path_in_dir dir p) := by
  unfold path_in_dir; infer_instance

/-! ## data/report_manager.py: draft sessions -/

structure ReportItem where
  id : String
  number : String
  description : String
  notes : String := ""
deriving DecidableEq

structure ReportPhoto where
  id : String
  file_path : List String
  item_id : Option String := none
  caption : Option String := none
deriving DecidableEq

/-- The draft-session record.  The `project_name` field is read by
report_store.py and api/routes/report.py in the source tree; the provided
revision of report_manager.py predates it, so the field is modelled from
those callers (it plays no role in any property below). -/
structure ReportSession where
  user_id : Int
  created_at : String
  location : String := ""
  title : String := "Inspection Report"
  title_he : String := ""
  template_key : String := "INSPECTION_REPORT"
  project_name : String := ""
  attendees : List String := []
  distribution_list : List String := []
  items : List ReportItem := []
  photos : List ReportPhoto := []
deriving DecidableEq

def ReportSession.next_number (s : ReportSession) : String :=
  toString (s.items.length + 1)

/-- `data/templates.py` -/
structure ReportTemplate where
  key : String
  title : String
  title_he : String
deriving DecidableEq

def TEMPLATES : List ReportTemplate :=
  [ { key := ("INSPECTION_REPORT"), title := ("Inspection Report"), title_he := ("דוח פיקוח") }
  , { key := ("VISIT_SUMMARY"), title := ("Visit Summary"), title_he := ("סיכום ביקור") }
  , { key := ("HOME_ORGANIZER_REPORT"), title := ("Home Organizer Report"), title_he := ("דוח סידור בית") }
  , { key := ("QUOTE"), title := ("Quote"), title_he := ("הצעת מחיר") } ]

def get_template (key : String) : ReportTemplate :=
  match TEMPLATES.find? (fun t => t.key == key) with
  | some t => t
  | none => { key := ("INSPECTION_REPORT"), title := ("Inspection Report"), title_he := ("דוח פיקוח") }

/-- Python `str.strip()` with no argument: drop leading and trailing
whitespace.  (Python also strips a few rarer unicode space characters;
nothing here depends on those.) -/
def pyStrip (s : String) : String :=
  String.mk (((s.data.dropWhile Char.isWhitespace).reverse.dropWhile
    Char.isWhitespace).reverse)

/-- The `ReportManager` state for one user: the `_sessions` cache entry and
the decoded content of the persisted session file (`none` when the file is
absent). -/
structure MgrState where
  mem : Option ReportSession
  file : Option ReportSession
deriving DecidableEq

/-- `ReportManager.get_session`: serve from the cache, else load the
persisted file into the cache, else report no session.  Returns the session
(if any) and the state after the call. -/
def get_session (st : MgrState) : Option ReportSession × MgrState :=
  match st.mem with
  | some s => (some s, st)
  | none =>
    match st.file with
    | some s => (some s, { st with mem := some s })
    | none => (none, st)

/-- `ReportManager.create_session`: build a fresh session from the template,
install it in the cache and persist it. -/
def create_session (user_id : Int) (location template_key created_at : String) :
    ReportSession × MgrState :=
  let template := if template_key = "" then get_template ("INSPECTION_REPORT")
                  else get_template template_key
  let session : ReportSession :=
    { user_id := user_id
      created_at := created_at
      location := pyStrip location
      template_key := template.key
      title := template.title
      title_he := template.title_he }
  (session, { mem := some session, file := some session })

/-- The session-level body of `ReportManager.add_item`: build the item with
`number = next_number()` and append it.  The `uuid4().hex` id is an
argument. -/
def ReportSession.add_item_value (s : ReportSession) (new_id description notes : String) :
    ReportItem × ReportSession :=
  let item : ReportItem :=
    { id := new_id, number := s.next_number, description := description, notes := notes }
  (item, { s with items := s.items ++ [item] })

/-- `ReportManager.add_item`: `self._sessions[user_id]` raises `KeyError`
when the cache has no entry; otherwise append the new item and persist. -/
def add_item (st : MgrState) (new_id description notes : String) :
    Except Unit (ReportItem × MgrState) :=
  match st.mem with
  | none => .error ()
  | some s =>
    let r := s.add_item_value new_id description notes
    .ok (r.1, { mem := some r.2, file := some r.2 })

/-- The session-level body of `ReportManager.add_photo`. -/
def ReportSession.add_photo_value (s : ReportSession) (new_id : String)
    (fp : List String) (item_id : Option String) : ReportPhoto × ReportSession :=
  let photo : ReportPhoto := { id := new_id, file_path := fp, item_id := item_id }
  (photo, { s with photos := s.photos ++ [photo] })

/-- `ReportManager.add_photo` (cache lookup then append-and-persist). -/
def add_photo (st : MgrState) (new_id : String) (fp : List String)
    (item_id : Option String) : Except Unit (ReportPhoto × MgrState) :=
  match st.mem with
  | none => .error ()
  | some s =>
    let r := s.add_photo_value new_id fp item_id
    .ok (r.1, { mem := some r.2, file := some r.2 })

/-- The loop of `ReportManager.update_item`: rewrite the first item whose id
matches, or report that none does. -/
def update_first_item : List ReportItem → String → String → String →
    Option (List ReportItem)
  | [], _, _, _ => none
  | i :: rest, tid, d, n =>
    if i.id = tid then some ({ i with description := d, notes := n } :: rest)
    else (update_first_item rest tid d n).map (i :: ·)

/-- `ReportManager.update_item`: `get_session`, raise on no session, rewrite
the first matching item and persist, or raise leaving the state as it was
after the lookup. -/
def update_item (st : MgrState) (item_id description notes : String) :
    Except String Unit × MgrState :=
  let r := get_session st
  match r.1 with
  | none => (.error ("No active report"), r.2)
  | some s =>
    match update_first_item s.items item_id description notes with
    | some items2 =>
      let s2 := { s with items := items2 }
      (.ok (), { mem := some s2, file := some s2 })
    | none => (.error ("Item not found"), r.2)

/-- `ReportManager.finalize`: `self._sessions.pop(user_id)` raises `KeyError`
when the cache has no entry; on success the cache entry is removed and the
persisted session file deleted, and the popped session is returned. -/
def finalize (st : MgrState) : Except Unit (ReportSession × MgrState) :=
  match st.mem with
  | none => .error ()
  | some s => .ok (s, { mem := none, file := none })

/-! ## data/report_store.py: the report archive -/

structure ReportSummary where
  report_id : String
  created_at : String
  location : String
  template_key : String
  title : String
  title_he : String := ""
  folder : String := ""
  project_name : String := ""
  tags : List String := []
deriving DecidableEq

/-- The archive state for one user: the decoded report index file (absent is
the empty list, as in `list_reports`) and the per-report content directories
with the `report.json` snapshot each holds. -/
structure ArchiveState where
  index : List ReportSummary
  dirs : List (String × ReportSession)
deriving DecidableEq

/-- `ReportStore.save_report`. `fs` is the set of files that exist on disk,
`report_id` stands for the fresh `uuid4().hex` and `created_at` for the
timestamp.  Each photo whose source file exists is copied into the report's
photos directory and its `file_path` rewritten to the copy; a photo whose
source file does not exist is kept unchanged.  The snapshot is written to the
content directory, then the summary is prepended to the index. -/
def save_report (st : ArchiveState) (fs : List (List String)) (user_id : Int)
    (report_id created_at : String) (session : ReportSession) :
    ReportSummary × ArchiveState :=
  let photos_dir := user_report_photos_dir user_id report_id
  let updated_photos := session.photos.map (fun p =>
    if p.file_path ∈ fs then { p with file_path := photos_dir ++ [path_name p.file_path] }
    else p)
  let session2 := { session with photos := updated_photos }
  let summary : ReportSummary :=
    { report_id := report_id
      created_at := created_at
      location := session.location
      template_key := session.template_key
      title := session.title
      title_he := session.title_he
      folder := ""
      project_name := session.project_name
      tags := [] }
  (summary, { index := summary :: st.index, dirs := (report_id, session2) :: st.dirs })

/-- `ReportStore.delete_report`: filter the index; if nothing was removed
return `False` with no write, else persist the filtered index and then remove
the content directory. -/
def delete_report (st : ArchiveState) (report_id : String) : Bool × ArchiveState :=
  let summaries := st.index
  let remaining := summaries.filter (fun s => s.report_id != report_id)
  if remaining.length = summaries.length then (false, st)
  else (true, { index := remaining, dirs := st.dirs.filter (fun d => d.1 != report_id) })

/-! ## api/routes/report.py: the photo and finalize endpoints -/

/-- The `/report/photo` route: look up the session, normalize the form
`item_id` (Python truthiness: `item_id.strip() if item_id else None`), clear
it when it is non-empty but matches no live item, save the upload and call
`ReportManager.add_photo`. -/
def add_photo_route (st : MgrState) (photo_id : String) (raw_item_id : Option String)
    (photo_path : List String) : Except String (ReportPhoto × MgrState) :=
  let r := get_session st
  match r.1 with
  | none => .error ("No active report")
  | some s =>
    let item_id1 : Option String :=
      match raw_item_id with
      | none => none
      | some v => if v = "" then none else some (pyStrip v)
    let item_id2 : Option String :=
      match item_id1 with
      | none => none
      | some t =>
        if t = "" then some t
        else if s.items.any (fun it => it.id == t) then some t
        else none
    match add_photo r.2 photo_id photo_path item_id2 with
    | .error _ => .error ("KeyError")
    | .ok (photo, st2) => .ok (photo, st2)

/-- The `/report/finalize` route: look up the session (raise 400 when there
is none), close the draft with `ReportManager.finalize`, render the document
(an opaque collaborator), and hand the closed session to
`ReportStore.save_report`. -/
def finalize_route (mgr : MgrState) (arch : ArchiveState) (fs : List (List String))
    (user_id : Int) (report_id created_at : String) :
    Except String (ReportSession × MgrState × ReportSummary × ArchiveState) :=
  let r := get_session mgr
  match r.1 with
  | none => .error ("No active report")
  | some _ =>
    match finalize r.2 with
    | .error _ => .error ("KeyError")
    | .ok (session, mgr2) =>
      let w := save_report arch fs user_id report_id created_at session
      .ok (session, mgr2, w.1, w.2)

/-! ## data/user_auth.py: the user directory -/

structure UserRecord where
  user_id : Int
  phone : String
  email : Option String
  password_hash : String
  created_at : String
  verified : Bool := false
  verification_code_hash : Option String := none
  verification_expires_at : Option String := none
  full_name : Option String := none
  role_title : Option String := none
  phone_contact : Option String := none
  company_name : Option String := none
  signature_path : Option String := none
  logo_path : Option String := none
deriving DecidableEq

/-- The in-memory user directory: the phone-keyed dict, in insertion
order. -/
abbrev Users := List (String × UserRecord)

/-- `UserAuthManager._next_user_id`. -/
def next_user_id : Users → Int
  | [] => 1
  | kv :: rest => (rest.foldl (fun m x => max m x.2.user_id) kv.2.user_id) + 1

/-- `UserAuthManager.create_user`.  The slow salted hash (`pwd_context.hash`)
is an opaque collaborator `hashFn`; `now` stands for the creation timestamp.
Returns the outcome together with the directory afterwards (unchanged when
the phone is already registered). -/
def create_user (users : Users) (hashFn : String → String) (now : String)
    (phone password : String) (email : Option String) :
    Except String UserRecord × Users :=
  if users.any (fun kv => kv.1 == phone) then
    (.error ("User already exists"), users)
  else
    let user : UserRecord :=
      { user_id := next_user_id users
        phone := phone
        email := email
        password_hash := hashFn password
        created_at := now
        verified := false }
    (.ok user, users ++ [(phone, user)])

/-! ## data/contacts.py: the contacts store and its corruption recovery

`json.loads` is modelled by a recursive-descent parser over the decoded
code points, following the stdlib grammar (strict mode: keywords, the
number regular expression with the NaN and Infinity constants, strings with
the standard escapes and a ban on raw control characters, arrays and objects
with later duplicate keys overwriting earlier ones in place).  The parser
consumes fuel on every recursive call; the initial fuel is generous enough
for every input that the Python recursion limit would also accept, and an
exhausted parse counts as a parse error, which the calling code treats the
same way as any other parse exception. -/

inductive Json where
  | null : Json
  | bool : Bool → Json
  | num : String → Json
  | str : String → Json
  | arr : List Json → Json
  | obj : List (String × Json) → Json

/-- JSON whitespace (the stdlib skips exactly space, tab, newline and
carriage return). -/
def jsonWs (c : Char) : Bool :=
  (" \t\n\r").data.contains c

def skipWs (cs : List Char) : List Char := cs.dropWhile jsonWs

/-- The value of one hexadecimal digit (code points 48-57 are the decimal
digits, 97-102 and 65-70 the lower- and upper-case letter digits). -/
def hexVal (c : Char) : Option Nat :=
  let n := c.toNat
  if 48 ≤ n && n ≤ 57 then some (n - 48)
  else if 97 ≤ n && n ≤ 102 then some (n - 87)
  else if 65 ≤ n && n ≤ 70 then some (n - 55)
  else none

def parseHex4 (cs : List Char) : Option (Nat × List Char) :=
  match cs with
  | a :: b :: c :: d :: rest =>
    match hexVal a, hexVal b, hexVal c, hexVal d with
    | some x, some y, some z, some w => some (((x * 16 + y) * 16 + z) * 16 + w, rest)
    | _, _, _, _ => none
  | _ => none

/-- Decode one string-escape `\uXXXX` unit, combining a valid surrogate
pair.  A lone surrogate, which Python would keep as an unpaired code unit in
the str, has no Lean `Char` representation and is mapped to U+FFFD; nothing
proved below depends on that corner. -/
def decodeUnicodeEscape (n : Nat) (rest : List Char) : Char × List Char :=
  if 55296 ≤ n ∧ n < 56320 then
    match rest with
    | '\\' :: 'u' :: rest2 =>
      match parseHex4 rest2 with
      | some (m, rest3) =>
        if 56320 ≤ m ∧ m < 57344 then
          (Char.ofNat (65536 + 1024 * (n - 55296) + (m - 56320)), rest3)
        else (Char.ofNat 65533, rest)
      | none => (Char.ofNat 65533, rest)
    | _ => (Char.ofNat 65533, rest)
  else if 56320 ≤ n ∧ n < 57344 then (Char.ofNat 65533, rest)
  else (Char.ofNat n, rest)

/-- The body of a JSON string after the opening quote (strict mode: raw
control characters below U+0020 are rejected; only the standard escapes are
accepted). -/
def parseStringBody : Nat → List Char → List Char → Except Unit (String × List Char)
  | 0, _, _ => .error ()
  | _, [], _ => .error ()
  | f + 1, c :: rest, acc =>
    if c = '"' then .ok (String.mk acc.reverse, rest)
    else if c = '\\' then
      match rest with
      | [] => .error ()
      | e :: rest2 =>
        if e = '"' then parseStringBody f rest2 ('"' :: acc)
        else if e = '\\' then parseStringBody f rest2 ('\\' :: acc)
        else if e = '/' then parseStringBody f rest2 ('/' :: acc)
        else if e = 'b' then parseStringBody f rest2 ('\x08' :: acc)
        else if e = 'f' then parseStringBody f rest2 ('\x0C' :: acc)
        else if e = 'n' then parseStringBody f rest2 ('\n' :: acc)
        else if e = 'r' then parseStringBody f rest2 ('\r' :: acc)
        else if e = 't' then parseStringBody f rest2 ('\t' :: acc)
        else if e = 'u' then
          match parseHex4 rest2 with
          | some (n, rest3) =>
            let r := decodeUnicodeEscape n rest3
            parseStringBody f r.2 (r.1 :: acc)
          | none => .error ()
        else .error ()
    else if c.toNat < 0x20 then .error ()
    else parseStringBody f rest (c :: acc)

/-- The stdlib number token: `-? (0 | [1-9][0-9]*) (\.[0-9]+)? ([eE][+-]?[0-9]+)?`,
matched maximally; the lexeme is kept verbatim. -/
def parseNumber (cs : List Char) : Option (List Char × List Char) :=
  let sign : List Char × List Char :=
    match cs with
    | '-' :: r => (['-'], r)
    | _ => ([], cs)
  match sign.2 with
  | [] => none
  | d :: r =>
    if d = '0' ∨ ('1' ≤ d ∧ d ≤ '9') then
      let intPart : List Char × List Char :=
        if d = '0' then ([d], r)
        else
          let ds := r.takeWhile Char.isDigit
          (d :: ds, r.drop ds.length)
      let frac : List Char × List Char :=
        match intPart.2 with
        | '.' :: r2 =>
          let ds := r2.takeWhile Char.isDigit
          if ds.isEmpty then ([], intPart.2)
          else ('.' :: ds, r2.drop ds.length)
        | _ => ([], intPart.2)
      let expPart : List Char × List Char :=
        match frac.2 with
        | e :: r2 =>
          if e = 'e' ∨ e = 'E' then
            let signedTail : List Char × List Char :=
              match r2 with
              | s :: r3 => if s = '+' ∨ s = '-' then ([s], r3) else ([], r2)
              | [] => ([], r2)
            let ds := signedTail.2.takeWhile Char.isDigit
            if ds.isEmpty then ([], frac.2)
            else (e :: (signedTail.1 ++ ds), signedTail.2.drop ds.length)
          else ([], frac.2)
        | [] => ([], frac.2)
      some (sign.1 ++ intPart.1 ++ frac.1 ++ expPart.1, expPart.2)
    else none

def startsWith (kw : List Char) (cs : List Char) : Bool :=
  kw.isPrefixOf cs

/-- Insert a parsed object member the way a Python dict does: a duplicate
key overwrites the earlier value in place, otherwise the pair is appended. -/
def objInsert (fields : List (String × Json)) (k : String) (v : Json) :
    List (String × Json) :=
  if fields.any (fun kv => kv.1 == k) then
    fields.map (fun kv => if kv.1 == k then (k, v) else kv)
  else fields ++ [(k, v)]

mutual

def parseValue : Nat → List Char → Except Unit (Json × List Char)
  | 0, _ => .error ()
  | f + 1, cs0 =>
    let cs := skipWs cs0
    match cs with
    | [] => .error ()
    | c :: rest =>
      if c = '"' then
        match parseStringBody f rest [] with
        | .ok (s, r) => .ok (.str s, r)
        | .error e => .error e
      else if c = '\x7b' then parseMembers f rest [] true
      else if c = '[' then parseElems f rest [] true
      else if startsWith (['n', 'u', 'l', 'l']) cs then .ok (.null, cs.drop 4)
      else if startsWith (['t', 'r', 'u', 'e']) cs then .ok (.bool true, cs.drop 4)
      else if startsWith (['f', 'a', 'l', 's', 'e']) cs then .ok (.bool false, cs.drop 5)
      else
        match parseNumber cs with
        | some (lit, r) => .ok (.num (String.mk lit), r)
        | none =>
          if startsWith (['N', 'a', 'N']) cs then .ok (.num (String.mk ['N', 'a', 'N']), cs.drop 3)
          else if startsWith (['I', 'n', 'f', 'i', 'n', 'i', 't', 'y']) cs then
            .ok (.num (String.mk ['I', 'n', 'f', 'i', 'n', 'i', 't', 'y']), cs.drop 8)
          else if startsWith (['-', 'I', 'n', 'f', 'i', 'n', 'i', 't', 'y']) cs then
            .ok (.num (String.mk ['-', 'I', 'n', 'f', 'i', 'n', 'i', 't', 'y']), cs.drop 9)
          else .error ()

def parseElems : Nat → List Char → List Json → Bool → Except Unit (Json × List Char)
  | 0, _, _, _ => .error ()
  | f + 1, cs0, acc, first =>
    let cs := skipWs cs0
    if first ∧ cs.headD ' ' = ']' then .ok (.arr [], cs.tail)
    else
      match parseValue f cs with
      | .error e => .error e
      | .ok (v, r) =>
        let r1 := skipWs r
        match r1 with
        | ']' :: r2 => .ok (.arr (acc ++ [v]), r2)
        | ',' :: r2 => parseElems f r2 (acc ++ [v]) false
        | _ => .error ()

def parseMembers : Nat → List Char → List (String × Json) → Bool →
    Except Unit (Json × List Char)
  | 0, _, _, _ => .error ()
  | f + 1, cs0, acc, first =>
    let cs := skipWs cs0
    if first ∧ cs.headD ' ' = '\x7d' then .ok (.obj [], cs.tail)
    else
      match cs with
      | '"' :: rest =>
        match parseStringBody f rest [] with
        | .error e => .error e
        | .ok (k, r) =>
          match skipWs r with
          | ':' :: r2 =>
            match parseValue f r2 with
            | .error e => .error e
            | .ok (v, r3) =>
              let acc2 := objInsert acc k v
              match skipWs r3 with
              | '\x7d' :: r4 => .ok (.obj acc2, r4)
              | ',' :: r4 => parseMembers f r4 acc2 false
              | _ => .error ()
          | _ => .error ()
      | _ => .error ()

end

/-- `json.loads`: parse one value, then require only whitespace to follow. -/
def pyJsonLoads (s : String) : Except Unit Json :=
  match parseValue (s.data.length * 2 + 8) s.data with
  | .error e => .error e
  | .ok (v, rest) => if skipWs rest = [] then .ok v else .error ()

/-- The `Contact` dataclass.  Python does not enforce the field annotations,
so each field holds whatever decoded JSON value was supplied; the three
fields without defaults are required. -/
structure Contact where
  id : Json
  name : Json
  email : Json
  company : Json := Json.null
  role_title : Json := Json.null
  phone : Json := Json.null

def contactFieldNames : List String :=
  [("id"), ("name"), ("email"), ("company"), ("role_title"), ("phone")]

def lookupField (fields : List (String × Json)) (k : String) : Json :=
  match fields.find? (fun kv => kv.1 == k) with
  | some kv => kv.2
  | none => Json.null

/-- `Contact(**c)`: requires a mapping whose keys are exactly a superset of
the required fields and a subset of the declared ones; anything else raises
`TypeError`. -/
def contactOfJson : Json → Except Unit Contact
  | .obj fields =>
    let keys := fields.map Prod.fst
    if keys.all (fun k => contactFieldNames.contains k)
        && (([("id"), ("name"), ("email")] : List String).all (fun k => keys.contains k)) then
      .ok { id := lookupField fields ("id")
            name := lookupField fields ("name")
            email := lookupField fields ("email")
            company := lookupField fields ("company")
            role_title := lookupField fields ("role_title")
            phone := lookupField fields ("phone") }
    else .error ()
  | _ => .error ()

/-- `for c in data`: lists yield their elements, strings their characters,
dicts their keys; anything else raises `TypeError`. -/
def pyIterElems : Json → Except Unit (List Json)
  | .arr xs => .ok xs
  | .str s => .ok (s.data.map (fun c => Json.str (String.mk [c])))
  | .obj fs => .ok (fs.map (fun kv => Json.str kv.1))
  | _ => .error ()

def isDict : Json → Bool
  | .obj _ => true
  | _ => false

/-- The strict path of `get_contacts`:
`[Contact(**c) for c in json.loads(content)]`. -/
def strict_parse_contacts (content : String) : Except Unit (List Contact) := do
  let j ← pyJsonLoads content
  let elems ← pyIterElems j
  elems.mapM contactOfJson

/-- `str.find`: index of the first occurrence, if any. -/
def findIdxChar (c : Char) : List Char → Option Nat
  | [] => none
  | x :: xs => if x = c then some 0 else (findIdxChar c xs).map (· + 1)

/-- `str.rfind`: index of the last occurrence, if any. -/
def rfindIdxChar (c : Char) (cs : List Char) : Option Nat :=
  (findIdxChar c cs.reverse).map (fun i => cs.length - 1 - i)

/-- `ContactsManager._recover_from_text`: take the slice from the first
opening bracket to the last closing bracket, parse it leniently, keep the
dict entries, and validate each; any failure yields `None`. -/
def recover_from_text (text : String) : Option (List Contact) :=
  if text = ("") then none
  else
    let cs := text.data
    match findIdxChar '[' cs, rfindIdxChar ']' cs with
    | some istart, some iend =>
      if istart < iend then
        match pyJsonLoads (String.mk ((cs.drop istart).take (iend + 1 - istart))) with
        | .ok d =>
          match pyIterElems d with
          | .ok elems =>
            match (elems.filter isDict).mapM contactOfJson with
            | .ok recovered => some recovered
            | .error _ => none
          | .error _ => none
        | .error _ => none
      else none
    | _, _ => none

def hexDigitChar (n : Nat) : Char :=
  Char.ofNat (if n ≤ 9 then 48 + n else 87 + n)

/-- `json.dump` string escaping with `ensure_ascii=False`: quote, backslash
and the control characters are escaped, everything else is kept raw. -/
def backslashed (c : Char) : List Char := '\\' :: [c]

def escapeChar (c : Char) : List Char :=
  match c with
  | '"' => backslashed '"'
  | '\\' => backslashed '\\'
  | '\n' => backslashed 'n'
  | '\t' => backslashed 't'
  | '\r' => backslashed 'r'
  | other =>
    let n := other.toNat
    if n == 8 then backslashed 'b'
    else if n == 12 then backslashed 'f'
    else if n < 32 then backslashed 'u' ++ '0' :: '0' :: hexDigitChar (n / 16) :: [hexDigitChar (n % 16)]
    else [other]

def dumpStringChars (s : String) : List Char :=
  '"' :: (s.data.flatMap escapeChar) ++ ['"']

mutual

def dumpJson : Json → List Char
  | .null => ("null").data
  | .bool true => ("true").data
  | .bool false => ("false").data
  | .num lit => lit.data
  | .str s => dumpStringChars s
  | .arr xs => '[' :: dumpJsonList xs ++ [']']
  | .obj fs => '\x7b' :: dumpJsonFields fs ++ ['\x7d']

def dumpJsonList : List Json → List Char
  | [] => []
  | [x] => dumpJson x
  | x :: y :: xs => dumpJson x ++ ',' :: ' ' :: dumpJsonList (y :: xs)

def dumpJsonFields : List (String × Json) → List Char
  | [] => []
  | [kv] => dumpStringChars kv.1 ++ ':' :: ' ' :: dumpJson kv.2
  | kv :: kw :: fs =>
    dumpStringChars kv.1 ++ ':' :: ' ' :: dumpJson kv.2
      ++ ',' :: ' ' :: dumpJsonFields (kw :: fs)

end

/-- `dataclasses.asdict`: all six fields, in declaration order. -/
def contactToJson (c : Contact) : Json :=
  .obj [(("id"), c.id), (("name"), c.name), (("email"), c.email),
        (("company"), c.company), (("role_title"), c.role_title), (("phone"), c.phone)]

/-- `ContactsManager.save_contacts`: serialize the contact list.  (The
source passes `indent=2` to `json.dump`; the pretty-printing whitespace is
not reproduced here, and no stated property depends on it.) -/
def save_contacts_text (contacts : List Contact) : String :=
  String.mk (dumpJson (Json.arr (contacts.map contactToJson)))

/-- The raw content of a Python file read with `encoding="utf-8"`: either
text, or bytes that fail to decode (in which case `f.read()` raises inside
the `try` block and the recovery path sees no bound `content`). -/
inductive PyBytes where
  | utf8 : String → PyBytes
  | invalid : PyBytes

/-- `ContactsManager.get_contacts` for one user: the input is the backing
file's state (`none` when absent) and the result is the returned contact
list together with the file state afterwards (`none` when unlinked). -/
def get_contacts (file : Option PyBytes) : List Contact × Option PyBytes :=
  match file with
  | none => ([], none)
  | some PyBytes.invalid =>
    match recover_from_text ("") with
    | some recovered => (recovered, some (.utf8 (save_contacts_text recovered)))
    | none => ([], none)
  | some (PyBytes.utf8 content) =>
    match strict_parse_contacts content with
    | .ok cs => (cs, some (.utf8 content))
    | .error _ =>
      match recover_from_text content with
      | some recovered => (recovered, some (.utf8 (save_contacts_text recovered)))
      | none => ([], none)

/-! Concrete demonstration values used by the witness theorems. -/

def demo_item_a : ReportItem :=
  { id := ("a"), number := ("1"), description := ("d1"), notes := ("") }

def demo_item_b : ReportItem :=
  { id := ("b"), number := ("2"), description := ("d2"), notes := ("") }

def demo_two_item_session : ReportSession :=
  { user_id := 1, created_at := ("t"), items := [demo_item_a, demo_item_b] }

def demo_two_item_state : MgrState :=
  { mem := some demo_two_item_session, file := some demo_two_item_session }

def demo_summary_r1 : ReportSummary :=
  { report_id := ("r1"), created_at := ("t"), location := ("l"),
    template_key := ("k"), title := ("T") }

def demo_user_050 : UserRecord :=
  { user_id := 4, phone := ("050"), email := none,
    password_hash := ("h0"), created_at := ("t0") }

def demo_draft_3 : ReportSession := (create_session 3 ("loc") ("") ("t0")).1

def empty_archive : ArchiveState := { index := [], dirs := [] }

/-- A photo whose `file_path` points into the shared per-user temp
directory, as `add_photo` stores uploads. -/
def demo_temp_photo : ReportPhoto :=
  { id := ("p1"), file_path := user_temp_dir 1 ++ [("pic.jpg")] }

def demo_photo_session : ReportSession :=
  { user_id := 1, created_at := ("t0"), photos := [demo_temp_photo] }

/-- Run consecutive `add_item` calls at the session level (each manager call
appends to the cached session and persists it); the inputs are
`(uuid, description, notes)` triples. -/
def run_add_items : ReportSession → List (String × String × String) → ReportSession
  | s, [] => s
  | s, c :: rest => run_add_items (s.add_item_value c.1 c.2.1 c.2.2).2 rest

/-! ## Supporting lemmas -/

theorem run_add_items_numbers (calls : List (String × String × String)) :
    ∀ s : ReportSession,
      (run_add_items s calls).items.map (fun i => i.number)
        = s.items.map (fun i => i.number)
          ++ (List.range calls.length).map (fun i => toString (s.items.length + i + 1)) := by
  induction calls with
  | nil => intro s; simp [run_add_items]
  | cons c rest ih =>
    intro s
    rw [show run_add_items s (c :: rest)
          = run_add_items (s.add_item_value c.1 c.2.1 c.2.2).2 rest from rfl, ih]
    simp only [ReportSession.add_item_value, ReportSession.next_number, List.map_append,
      List.length_append, List.map_cons, List.map_nil, List.length_cons, List.length_nil]
    rw [List.append_assoc]
    congr 1
    rw [List.range_succ_eq_map]
    simp only [List.map_cons, List.map_map, Function.comp_def, Nat.add_zero,
      List.singleton_append, List.cons.injEq, true_and]
    exact List.map_congr_left (fun a _ => by congr 1; omega)

theorem update_first_item_none (l : List ReportItem) (tid d n : String)
    (h : ∀ i ∈ l, i.id ≠ tid) : update_first_item l tid d n = none := by
  induction l with
  | nil => rfl
  | cons i rest ih =>
    have hi : i.id ≠ tid := h i (List.mem_cons_self i rest)
    simp only [update_first_item, if_neg hi]
    rw [ih (fun j hj => h j (List.mem_cons_of_mem i hj))]
    rfl

theorem update_first_item_numbers (l : List ReportItem) (tid d n : String) :
    ∀ l2, update_first_item l tid d n = some l2 →
      l2.map (fun i => i.number) = l.map (fun i => i.number) := by
  induction l with
  | nil => intro l2 h; exact Option.noConfusion h
  | cons i rest ih =>
    intro l2 h
    simp only [update_first_item] at h
    by_cases hi : i.id = tid
    · rw [if_pos hi] at h
      cases h
      simp
    · rw [if_neg hi] at h
      cases hrec : update_first_item rest tid d n with
      | none => rw [hrec] at h; simp at h
      | some rest2 =>
        rw [hrec] at h
        injection h with h2
        subst h2
        simp only [List.map_cons]
        rw [ih rest2 hrec]

theorem update_first_item_at (l : List ReportItem) (tid d n : String) :
    ∀ (k : Nat) (hk : k < l.length), (l.get ⟨k, hk⟩).id = tid →
      (∀ j (hj : j < k), (l.get ⟨j, Nat.lt_trans hj hk⟩).id ≠ tid) →
      update_first_item l tid d n
        = some (l.set k { l.get ⟨k, hk⟩ with description := d, notes := n }) := by
  induction l with
  | nil => intro k hk; simp at hk
  | cons i rest ih =>
    intro k hk hmatch hfirst
    cases k with
    | zero =>
      simp only [List.get] at hmatch
      simp only [update_first_item, if_pos hmatch, List.set]
      rfl
    | succ k0 =>
      have hi : i.id ≠ tid := by
        have := hfirst 0 (Nat.succ_pos k0)
        simpa using this
      simp only [update_first_item, if_neg hi]
      have hk0 : k0 < rest.length := Nat.lt_of_succ_lt_succ hk
      rw [ih k0 hk0 (by simpa using hmatch)
        (fun j hj => by
          have := hfirst (j + 1) (Nat.succ_lt_succ hj)
          simpa using this)]
      rfl

theorem rate_accept (now : Rat) (entries : List Rat)
    (h : ∀ t ∈ entries, now - RATE_WINDOW_SECONDS ≤ t)
    (hlen : entries.length < RATE_MAX_PER_WINDOW) :
    check_rate_limit now entries = (true, entries ++ [now]) := by
  simp only [check_rate_limit]
  rw [List.filter_eq_self.mpr (fun t ht => decide_eq_true (h t ht))]
  rw [if_neg (by omega)]

theorem rate_reject (now : Rat) (entries : List Rat)
    (h : RATE_MAX_PER_WINDOW ≤ (entries.filter
      (fun t => decide (now - RATE_WINDOW_SECONDS ≤ t))).length) :
    check_rate_limit now entries = (false, entries) := by
  unfold check_rate_limit
  rw [if_pos h]

theorem record_failure_step (now : Rat) (st : LockoutState)
    (h : ∀ t ∈ st.failures, now - LOCKOUT_WINDOW_SECONDS ≤ t) :
    record_login_failure now st =
      { failures := st.failures ++ [now]
        locked_until :=
          if LOCKOUT_THRESHOLD ≤ st.failures.length + 1
          then some (now + LOCKOUT_DURATION_SECONDS) else st.locked_until } := by
  simp only [record_login_failure]
  rw [List.filter_eq_self.mpr (fun t ht => decide_eq_true (h t ht))]
  simp

theorem get_session_of_mem (st : MgrState) (s : ReportSession) (h : st.mem = some s) :
    get_session st = (some s, st) := by
  unfold get_session; rw [h]

theorem get_session_fst_some (st : MgrState) (s : ReportSession)
    (h : (get_session st).1 = some s) :
    ((get_session st).2).mem = some s ∧ ((get_session st).2).file = st.file := by
  cases hm : st.mem with
  | some s0 =>
    rw [get_session_of_mem st s0 hm] at h ⊢
    exact ⟨h ▸ hm, rfl⟩
  | none =>
    cases hf : st.file with
    | some s0 =>
      unfold get_session at h ⊢
      rw [hm, hf] at h ⊢
      simp at h
      simp [h]
    | none =>
      unfold get_session at h
      rw [hm, hf] at h
      exact Option.noConfusion h

theorem get_session_fst_none (st : MgrState) (h : (get_session st).1 = none) :
    st.mem = none ∧ st.file = none ∧ (get_session st).2 = st := by
  cases hm : st.mem with
  | some s0 => rw [get_session_of_mem st s0 hm] at h; exact Option.noConfusion h
  | none =>
    cases hf : st.file with
    | some s0 =>
      unfold get_session at h
      rw [hm, hf] at h
      exact Option.noConfusion h
    | none =>
      refine ⟨rfl, rfl, ?_⟩
      unfold get_session
      rw [hm, hf]

theorem get_session_stable (st : MgrState) :
    (get_session ((get_session st).2)).1 = (get_session st).1 := by
  cases h : (get_session st).1 with
  | some s =>
    have h2 := get_session_fst_some st s h
    rw [get_session_of_mem _ s h2.1]
  | none =>
    have h2 := get_session_fst_none st h
    rw [h2.2.2, h]

/-- Shorthand: the timestamp `a` lies in the trailing rate-limit window that
ends at `b`. -/
theorem sub_window_le {a b : Rat} (h : a ≤ b + 60) : a - RATE_WINDOW_SECONDS ≤ b := by
  rw [show RATE_WINDOW_SECONDS = (60 : Rat) from rfl]
  linarith

theorem sub_lockout_le {a b : Rat} (h : a ≤ b + 600) : a - LOCKOUT_WINDOW_SECONDS ≤ b := by
  rw [show LOCKOUT_WINDOW_SECONDS = (600 : Rat) from rfl]
  linarith

/-! ## Claim theorems -/

/-- C2: over any sequence of `addItem` calls on a single draft session, item
numbers are exactly the decimal strings one through n in call order; each new
item's number is the item count at creation plus one; a fresh session starts
with no items; and neither `update_item` nor `add_photo` ever changes the
stored numbers. -/
theorem add_item_numbering :
    (∀ (s : ReportSession) (new_id d n : String),
        ((s.add_item_value new_id d n).1).number = toString (s.items.length + 1))
    ∧ (∀ (uid : Int) (loc tk ca : String), ((create_session uid loc tk ca).1).items = [])
    ∧ (∀ (s : ReportSession) (calls : List (String × String × String)),
        s.items = [] →
        (run_add_items s calls).items.map (fun i => i.number)
          = (List.range calls.length).map (fun i => toString (i + 1)))
    ∧ (∀ (st : MgrState) (tid d n : String),
        ((get_session (update_item st tid d n).2).1).map (fun s => s.items.map (fun i => i.number))
          = ((get_session st).1).map (fun s => s.items.map (fun i => i.number)))
    ∧ (∀ (st : MgrState) (pid : String) (fp : List String) (iid : Option String)
          (p : ReportPhoto) (st2 : MgrState), add_photo st pid fp iid = .ok (p, st2) →
        ((get_session st2).1).map (fun s => s.items)
          = ((get_session st).1).map (fun s => s.items)) := by
  refine ⟨?_, ?_, ?_, ?_, ?_⟩
  · intro s new_id d n
    rfl
  · intro uid loc tk ca
    simp [create_session]
  · intro s calls h
    rw [run_add_items_numbers calls s, h]
    simp
  · intro st tid d n
    unfold update_item
    cases h : (get_session st).1 with
    | none =>
      have h2 := get_session_fst_none st h
      simp only [h, h2.2.2]
    | some s =>
      have h2 := get_session_fst_some st s h
      simp only [h]
      cases hu : update_first_item s.items tid d n with
      | some items2 =>
        simp only [h]
        rw [get_session_of_mem (MgrState.mk (some { s with items := items2 })
          (some { s with items := items2 })) { s with items := items2 } rfl]
        simp only [Option.map_some']
        exact congrArg some (update_first_item_numbers s.items tid d n items2 hu)
      | none =>
        simp only [h]
        rw [get_session_of_mem ((get_session st).2) s h2.1]
  · intro st pid fp iid p st2 h
    unfold add_photo at h
    cases hm : st.mem with
    | none => rw [hm] at h; exact Except.noConfusion h
    | some s =>
      rw [hm] at h
      injection h with h2
      injection h2 with hp hst
      subst hst
      rw [get_session_of_mem st s hm]
      rw [get_session_of_mem _ _ (rfl :
        (MgrState.mk (some (s.add_photo_value pid fp iid).2)
          (some (s.add_photo_value pid fp iid).2)).mem
          = some (s.add_photo_value pid fp iid).2)]
      rfl

/-- C2 witness: two `addItem` calls on a fresh session yield numbers
one and two. -/
theorem add_item_numbering_witness :
    (run_add_items ((create_session 7 ("") ("") ("t")).1)
        [(("a"), ("desc1"), ("n1")), (("b"), ("desc2"), ("n2"))]).items.map (fun i => i.number)
      = (List.range 2).map (fun i => toString (i + 1)) :=
  add_item_numbering.2.2.1 ((create_session 7 ("") ("") ("t")).1)
    [(("a"), ("desc1"), ("n1")), (("b"), ("desc2"), ("n2"))] (by rfl)

/-- C4: each rate-limit check evicts timestamps older than the trailing
60-second window and rejects exactly when at least five remain, recording the
attempt only on success; hence a sixth call within 60 seconds of the first of
five recorded calls is rejected, while a sixth call 61 seconds after five
calls at the window start succeeds. -/
theorem rate_limit_spec :
    (∀ (now : Rat) (entries : List Rat),
        (check_rate_limit now entries).1 = false
          ↔ RATE_MAX_PER_WINDOW ≤
              (entries.filter (fun t => decide (now - RATE_WINDOW_SECONDS ≤ t))).length)
    ∧ (∀ (now : Rat) (entries : List Rat),
        (check_rate_limit now entries).1 = false → (check_rate_limit now entries).2 = entries)
    ∧ (∀ (now : Rat) (entries : List Rat),
        (check_rate_limit now entries).1 = true →
          (check_rate_limit now entries).2
            = entries.filter (fun t => decide (now - RATE_WINDOW_SECONDS ≤ t)) ++ [now])
    ∧ (∀ t0 t1 t2 t3 t4 t5 : Rat, t0 ≤ t1 → t1 ≤ t2 → t2 ≤ t3 → t3 ≤ t4 → t4 ≤ t5 →
        t5 < t0 + 60 →
        (run_rate_calls [t0, t1, t2, t3, t4, t5] []).1
          = [true, true, true, true, true, false])
    ∧ (∀ t0 : Rat,
        (run_rate_calls [t0, t0, t0, t0, t0, t0 + 61] []).1
          = [true, true, true, true, true, true]) := by
  have hwin : RATE_WINDOW_SECONDS = (60 : Rat) := rfl
  have hmax : RATE_MAX_PER_WINDOW = 5 := rfl
  refine ⟨?_, ?_, ?_, ?_, ?_⟩
  · intro now entries
    simp only [check_rate_limit]
    by_cases h : RATE_MAX_PER_WINDOW ≤
        (entries.filter (fun t => decide (now - RATE_WINDOW_SECONDS ≤ t))).length
    · rw [if_pos h]; exact iff_of_true rfl h
    · rw [if_neg h]; exact iff_of_false (by simp) h
  · intro now entries h
    simp only [check_rate_limit] at h ⊢
    by_cases hc : RATE_MAX_PER_WINDOW ≤
        (entries.filter (fun t => decide (now - RATE_WINDOW_SECONDS ≤ t))).length
    · rw [if_pos hc]
    · rw [if_neg hc] at h; simp at h
  · intro now entries h
    simp only [check_rate_limit] at h ⊢
    by_cases hc : RATE_MAX_PER_WINDOW ≤
        (entries.filter (fun t => decide (now - RATE_WINDOW_SECONDS ≤ t))).length
    · rw [if_pos hc] at h; simp at h
    · rw [if_neg hc]
  · intro t0 t1 t2 t3 t4 t5 h01 h12 h23 h34 h45 hwin5
    have s0 : check_rate_limit t0 [] = (true, [t0]) :=
      rate_accept t0 [] (by intro t ht; exact absurd ht (List.not_mem_nil t)) (by simp [hmax])
    have s1 : check_rate_limit t1 [t0] = (true, [t0, t1]) :=
      rate_accept t1 [t0]
        (by intro t ht; simp at ht; subst ht; exact sub_window_le (by linarith))
        (by simp [hmax])
    have s2 : check_rate_limit t2 [t0, t1] = (true, [t0, t1, t2]) :=
      rate_accept t2 [t0, t1]
        (by intro t ht; simp at ht
            rcases ht with h | h <;> subst h <;> exact sub_window_le (by linarith))
        (by simp [hmax])
    have s3 : check_rate_limit t3 [t0, t1, t2] = (true, [t0, t1, t2, t3]) :=
      rate_accept t3 [t0, t1, t2]
        (by intro t ht; simp at ht
            rcases ht with h | h | h <;> subst h <;> exact sub_window_le (by linarith))
        (by simp [hmax])
    have s4 : check_rate_limit t4 [t0, t1, t2, t3] = (true, [t0, t1, t2, t3, t4]) :=
      rate_accept t4 [t0, t1, t2, t3]
        (by intro t ht; simp at ht
            rcases ht with h | h | h | h <;> subst h <;> exact sub_window_le (by linarith))
        (by simp [hmax])
    have s5 : check_rate_limit t5 [t0, t1, t2, t3, t4] = (false, [t0, t1, t2, t3, t4]) := by
      apply rate_reject
      rw [List.filter_eq_self.mpr]
      · simp [hmax]
      · intro t ht; simp at ht
        rcases ht with h | h | h | h | h <;> subst h <;>
          exact decide_eq_true (sub_window_le (by linarith))
    simp [run_rate_calls, s0, s1, s2, s3, s4, s5]
  · intro t0
    have step : ∀ l : List Rat, (∀ t ∈ l, t = t0) → l.length < 5 →
        check_rate_limit t0 l = (true, l ++ [t0]) := by
      intro l hl hlen
      exact rate_accept t0 l
        (fun t ht => by rw [hl t ht]; exact sub_window_le (by linarith)) (by simpa [hmax])
    have s0 := step [] (by intro t ht; simp at ht) (by simp)
    have s1 := step [t0] (by intro t ht; simp at ht; exact ht) (by simp)
    have s2 := step [t0, t0] (by intro t ht; simp at ht; exact ht) (by simp)
    have s3 := step [t0, t0, t0] (by intro t ht; simp at ht; exact ht) (by simp)
    have s4 := step [t0, t0, t0, t0] (by intro t ht; simp at ht; exact ht) (by simp)
    have s5 : check_rate_limit (t0 + 61) [t0, t0, t0, t0, t0] = (true, [t0 + 61]) := by
      simp only [check_rate_limit]
      have hfil : ([t0, t0, t0, t0, t0] : List Rat).filter
          (fun t => decide (t0 + 61 - RATE_WINDOW_SECONDS ≤ t)) = [] := by
        apply List.filter_eq_nil_iff.mpr
        intro t ht
        simp at ht
        rw [ht]
        simp only [decide_eq_true_eq, hwin]
        intro hcontra
        linarith
      rw [hfil]
      simp [hmax]
    simp [run_rate_calls, s0, s1, s2, s3, s4, s5]

/-- C4 witness: the two scenarios at concrete times (five calls at times
0, 10, 20, 30, 40 with a sixth at 59; and five calls at 0 with a sixth
at 61). -/
theorem rate_limit_spec_witness :
    (run_rate_calls [0, 10, 20, 30, 40, (59 : Rat)] []).1
        = [true, true, true, true, true, false]
    ∧ (run_rate_calls [0, 0, 0, 0, 0, ((0 : Rat) + 61)] []).1
        = [true, true, true, true, true, true] :=
  ⟨rate_limit_spec.2.2.2.1 0 10 20 30 40 59 (by norm_num) (by norm_num) (by norm_num)
      (by norm_num) (by norm_num) (by norm_num),
    rate_limit_spec.2.2.2.2 0⟩

theorem record_four (t1 t2 t3 t4 : Rat) (h12 : t1 ≤ t2) (h23 : t2 ≤ t3) (h34 : t3 ≤ t4)
    (hw : t4 ≤ t1 + 600) :
    record_failures [t1, t2, t3, t4] { failures := [], locked_until := none }
      = { failures := [t1, t2, t3, t4], locked_until := none } := by
  have r1 : record_login_failure t1 { failures := [], locked_until := none }
      = { failures := [t1], locked_until := none } := by
    rw [record_failure_step _ _ (by intro t ht; simp at ht)]
    simp [LOCKOUT_THRESHOLD]
  have r2 : record_login_failure t2 { failures := [t1], locked_until := none }
      = { failures := [t1, t2], locked_until := none } := by
    rw [record_failure_step _ _ (by
      intro t ht; simp at ht; subst ht; exact sub_lockout_le (by linarith))]
    simp [LOCKOUT_THRESHOLD]
  have r3 : record_login_failure t3 { failures := [t1, t2], locked_until := none }
      = { failures := [t1, t2, t3], locked_until := none } := by
    rw [record_failure_step _ _ (by
      intro t ht; simp at ht
      rcases ht with h | h <;> subst h <;> exact sub_lockout_le (by linarith))]
    simp [LOCKOUT_THRESHOLD]
  have r4 : record_login_failure t4 { failures := [t1, t2, t3], locked_until := none }
      = { failures := [t1, t2, t3, t4], locked_until := none } := by
    rw [record_failure_step _ _ (by
      intro t ht; simp at ht
      rcases ht with h | h | h <;> subst h <;> exact sub_lockout_le (by linarith))]
    simp [LOCKOUT_THRESHOLD]
  simp [record_failures, r1, r2, r3, r4]

/-- C5: five failed logins inside the ten-minute window set a lock ten
minutes past the fifth failure (four failures do not); an unexpired lock
reports locked without touching the state; the first check at or after
expiry reports unlocked and clears both the lock and the failure history;
and the successful-login path clears both. -/
theorem login_lockout_spec :
    (∀ t1 t2 t3 t4 t5 : Rat, t1 ≤ t2 → t2 ≤ t3 → t3 ≤ t4 → t4 ≤ t5 → t5 < t1 + 600 →
        record_failures [t1, t2, t3, t4, t5] { failures := [], locked_until := none }
          = { failures := [t1, t2, t3, t4, t5], locked_until := some (t5 + 600) })
    ∧ (∀ t1 t2 t3 t4 : Rat, t1 ≤ t2 → t2 ≤ t3 → t3 ≤ t4 → t4 < t1 + 600 →
        (record_failures [t1, t2, t3, t4]
            { failures := [], locked_until := none }).locked_until = none)
    ∧ (∀ (st : LockoutState) (u now : Rat), st.locked_until = some u → u ≠ 0 → now < u →
        is_login_locked now st = (true, st))
    ∧ (∀ (st : LockoutState) (u now : Rat), st.locked_until = some u → u ≠ 0 → u ≤ now →
        is_login_locked now st = (false, { failures := [], locked_until := none }))
    ∧ (∀ (st : LockoutState) (now : Rat),
        clear_login_failures st = { failures := [], locked_until := none }
        ∧ is_login_locked now (clear_login_failures st)
            = (false, clear_login_failures st)) := by
  refine ⟨?_, ?_, ?_, ?_, ?_⟩
  · intro t1 t2 t3 t4 t5 h12 h23 h34 h45 hw
    have hfold : record_failures [t1, t2, t3, t4, t5] { failures := [], locked_until := none }
        = record_login_failure t5 (record_failures [t1, t2, t3, t4]
            { failures := [], locked_until := none }) := by
      simp [record_failures, List.foldl]
    rw [hfold, record_four t1 t2 t3 t4 h12 h23 h34 (by linarith)]
    rw [record_failure_step _ _ (by
      intro t ht; simp at ht
      rcases ht with h | h | h | h <;> subst h <;> exact sub_lockout_le (by linarith))]
    simp [LOCKOUT_THRESHOLD]
    rfl
  · intro t1 t2 t3 t4 h12 h23 h34 hw
    rw [record_four t1 t2 t3 t4 h12 h23 h34 (by linarith)]
  · intro st u now hu hu0 hlt
    unfold is_login_locked
    simp only [hu]
    rw [if_neg hu0, if_neg (not_le.mpr hlt)]
  · intro st u now hu hu0 hle
    unfold is_login_locked
    simp only [hu]
    rw [if_neg hu0, if_pos hle]
  · intro st now
    exact ⟨rfl, rfl⟩

/-- C5 witness: five failures at time zero lock until 600; a check at
time 10 reports locked; a check at time 600 unlocks and clears. -/
theorem login_lockout_spec_witness :
    record_failures [0, 0, 0, 0, (0 : Rat)] { failures := [], locked_until := none }
        = { failures := [0, 0, 0, 0, 0], locked_until := some ((0 : Rat) + 600) }
    ∧ is_login_locked 10 { failures := [0, 0, 0, 0, 0], locked_until := some ((0 : Rat) + 600) }
        = (true, { failures := [0, 0, 0, 0, 0], locked_until := some ((0 : Rat) + 600) })
    ∧ is_login_locked 600 { failures := [0, 0, 0, 0, 0], locked_until := some ((0 : Rat) + 600) }
        = (false, { failures := [], locked_until := none }) :=
  ⟨login_lockout_spec.1 0 0 0 0 0 (by norm_num) (by norm_num) (by norm_num) (by norm_num)
      (by norm_num),
    login_lockout_spec.2.2.1 _ (0 + 600) 10 rfl (by norm_num) (by norm_num),
    login_lockout_spec.2.2.2.1 _ (0 + 600) 600 rfl (by norm_num) (by norm_num)⟩

/-- C3: finalizing with no active draft session fails; on success the
in-memory session is removed and the persisted draft file deleted before the
session value reaches the archive, the route returns exactly the session
that was active, and a later `get_session` finds no active session. -/
theorem finalize_route_spec :
    (∀ (mgr : MgrState) (arch : ArchiveState) (fs : List (List String)) (uid : Int)
        (rid ca : String), (get_session mgr).1 = none →
        finalize_route mgr arch fs uid rid ca = .error ("No active report"))
    ∧ (∀ (mgr : MgrState) (arch : ArchiveState) (fs : List (List String)) (uid : Int)
        (rid ca : String) (s : ReportSession), (get_session mgr).1 = some s →
        finalize_route mgr arch fs uid rid ca
          = .ok (s, { mem := none, file := none },
              (save_report arch fs uid rid ca s).1, (save_report arch fs uid rid ca s).2)
        ∧ (get_session { mem := none, file := none }).1 = none) := by
  constructor
  · intro mgr arch fs uid rid ca h
    unfold finalize_route
    simp only [h]
  · intro mgr arch fs uid rid ca s h
    have hmem := (get_session_fst_some mgr s h).1
    constructor
    · unfold finalize_route
      simp only [h]
      unfold finalize
      simp only [hmem]
    · rfl

/-- C3 witness: finalizing an active draft returns that draft, clears the
manager state, and passes the draft to the archive. -/
theorem finalize_route_spec_witness :
    finalize_route { mem := some demo_draft_3, file := some demo_draft_3 }
        empty_archive [] 3 ("r1") ("t1")
      = .ok (demo_draft_3, { mem := none, file := none },
          (save_report empty_archive [] 3 ("r1") ("t1") demo_draft_3).1,
          (save_report empty_archive [] 3 ("r1") ("t1") demo_draft_3).2) :=
  ((finalize_route_spec.2 { mem := some demo_draft_3, file := some demo_draft_3 }
      empty_archive [] 3 ("r1") ("t1") demo_draft_3 rfl)).1

theorem delete_report_not_found (st : ArchiveState) (rid : String)
    (h : ∀ s ∈ st.index, s.report_id ≠ rid) : delete_report st rid = (false, st) := by
  simp only [delete_report]
  rw [List.filter_eq_self.mpr (fun s hs => bne_iff_ne.mpr (h s hs))]
  rw [if_pos rfl]

/-- C7: deleting an absent report id returns false and changes nothing;
deleting a present id removes and persists the index row first and then the
content directory, returning true; and a retry after the index write but
before the directory removal is a safe no-op returning false. -/
theorem delete_report_spec :
    (∀ (st : ArchiveState) (rid : String), (∀ s ∈ st.index, s.report_id ≠ rid) →
        delete_report st rid = (false, st))
    ∧ (∀ (st : ArchiveState) (rid : String), (∃ s ∈ st.index, s.report_id = rid) →
        delete_report st rid
          = (true, { index := st.index.filter (fun s => s.report_id != rid),
                     dirs := st.dirs.filter (fun d => d.1 != rid) })
        ∧ delete_report { index := st.index.filter (fun s => s.report_id != rid),
                          dirs := st.dirs } rid
            = (false, { index := st.index.filter (fun s => s.report_id != rid),
                        dirs := st.dirs })) := by
  constructor
  · exact delete_report_not_found
  · intro st rid hex
    constructor
    · simp only [delete_report]
      rw [if_neg]
      obtain ⟨s0, hs0, hid⟩ := hex
      have hlt : (st.index.filter (fun s => s.report_id != rid)).length < st.index.length := by
        apply List.length_filter_lt_length_iff_exists.mpr
        exact ⟨s0, hs0, by simp [hid]⟩
      omega
    · apply delete_report_not_found
      intro s hs
      have := List.of_mem_filter hs
      exact bne_iff_ne.mp this

/-- C7 witness: deleting a missing id from a one-report archive is a no-op;
deleting the present id removes the row and directory, and the retry returns
false. -/
theorem delete_report_spec_witness :
    delete_report { index := [demo_summary_r1], dirs := [] } ("nonexistent")
      = (false, { index := [demo_summary_r1], dirs := [] })
    ∧ delete_report { index := [demo_summary_r1], dirs := [] } ("r1")
      = (true, { index := [], dirs := [] }) := by
  constructor
  · exact delete_report_spec.1 { index := [demo_summary_r1], dirs := [] } ("nonexistent")
      (by decide)
  · have h := (delete_report_spec.2 { index := [demo_summary_r1], dirs := [] } ("r1")
      ⟨demo_summary_r1, List.mem_singleton_self _, rfl⟩).1
    rw [h]
    rfl

theorem foldl_max_bounds (l : List (String × UserRecord)) :
    ∀ a : Int, a ≤ l.foldl (fun m x => max m x.2.user_id) a
      ∧ ∀ kv ∈ l, kv.2.user_id ≤ l.foldl (fun m x => max m x.2.user_id) a := by
  induction l with
  | nil => intro a; simp
  | cons x xs ih =>
    intro a
    constructor
    · exact le_trans (le_max_left a x.2.user_id) (ih (max a x.2.user_id)).1
    · intro kv hkv
      rcases List.mem_cons.mp hkv with h | h
      · subst h
        exact le_trans (le_max_right a kv.2.user_id) (ih (max a kv.2.user_id)).1
      · exact (ih (max a x.2.user_id)).2 kv h

theorem foldl_max_attained (l : List (String × UserRecord)) :
    ∀ a : Int, l.foldl (fun m x => max m x.2.user_id) a = a
      ∨ ∃ kv ∈ l, l.foldl (fun m x => max m x.2.user_id) a = kv.2.user_id := by
  induction l with
  | nil => intro a; left; rfl
  | cons x xs ih =>
    intro a
    rcases ih (max a x.2.user_id) with h | h
    · rcases le_total a x.2.user_id with hle | hle
      · right
        refine ⟨x, List.mem_cons_self x xs, ?_⟩
        rw [List.foldl_cons, h, max_eq_right hle]
      · left
        rw [List.foldl_cons, h, max_eq_left hle]
    · right
      obtain ⟨kv, hkv, he⟩ := h
      exact ⟨kv, List.mem_cons_of_mem x hkv, by rw [List.foldl_cons, he]⟩

theorem next_user_id_attained (users : Users) (hne : users ≠ []) :
    ∃ kv ∈ users, next_user_id users = kv.2.user_id + 1 := by
  cases users with
  | nil => exact absurd rfl hne
  | cons x xs =>
    simp only [next_user_id]
    rcases foldl_max_attained xs x.2.user_id with h | h
    · exact ⟨x, List.mem_cons_self x xs, by rw [h]⟩
    · obtain ⟨kv, hkv, he⟩ := h
      exact ⟨kv, List.mem_cons_of_mem x hkv, by rw [he]⟩

theorem next_user_id_gt (users : Users) :
    ∀ kv ∈ users, kv.2.user_id < next_user_id users := by
  intro kv hkv
  cases users with
  | nil => simp at hkv
  | cons x xs =>
    simp only [next_user_id]
    rcases List.mem_cons.mp hkv with h | h
    · subst h
      have := (foldl_max_bounds xs kv.2.user_id).1
      omega
    · have := (foldl_max_bounds xs x.2.user_id).2 kv h
      omega

/-- C9: `create_user` fails with the duplicate error exactly when the phone
is already a key, leaving the directory unchanged; on success the new record
gets `max(existing ids) + 1` (one on an empty directory, strictly above every
existing id), stores the hash of the password, and starts unverified. -/
theorem create_user_spec :
    (∀ (users : Users) (hashFn : String → String) (now phone password : String)
        (email : Option String),
        ((∃ kv ∈ users, kv.1 = phone) ↔
          create_user users hashFn now phone password email
            = (.error ("User already exists"), users)))
    ∧ (∀ (users : Users) (hashFn : String → String) (now phone password : String)
        (email : Option String), (∀ kv ∈ users, kv.1 ≠ phone) →
        ∃ u, create_user users hashFn now phone password email = (.ok u, users ++ [(phone, u)])
          ∧ u.user_id = next_user_id users
          ∧ (users = [] → u.user_id = 1)
          ∧ (users ≠ [] → ∃ kv ∈ users, u.user_id = kv.2.user_id + 1)
          ∧ (∀ kv ∈ users, kv.2.user_id < u.user_id)
          ∧ u.password_hash = hashFn password
          ∧ u.verified = false
          ∧ u.phone = phone ∧ u.email = email ∧ u.created_at = now) := by
  constructor
  · intro users hashFn now phone password email
    constructor
    · intro hex
      have hany : users.any (fun kv => kv.1 == phone) = true := by
        rw [List.any_eq_true]
        obtain ⟨kv, hkv, he⟩ := hex
        exact ⟨kv, hkv, by simp [he]⟩
      unfold create_user
      rw [hany]
      simp
    · intro heq
      by_cases hany : users.any (fun kv => kv.1 == phone) = true
      · rw [List.any_eq_true] at hany
        obtain ⟨kv, hkv, he⟩ := hany
        exact ⟨kv, hkv, by simpa using he⟩
      · exfalso
        unfold create_user at heq
        rw [Bool.not_eq_true] at hany
        rw [hany] at heq
        simp at heq
  · intro users hashFn now phone password email hno
    have hany : users.any (fun kv => kv.1 == phone) = false := by
      rw [List.any_eq_false]
      intro kv hkv
      simp [hno kv hkv]
    refine ⟨{ user_id := next_user_id users,
              phone := phone,
              email := email,
              password_hash := hashFn password,
              created_at := now,
              verified := false },
      ?_, rfl, ?_, next_user_id_attained users, next_user_id_gt users, rfl, rfl, rfl, rfl, rfl⟩
    · unfold create_user
      rw [hany]
      simp
    · intro h
      subst h
      rfl

/-- C9 witness: creating a user on a directory with one user of id 4 gives
id 5 with the hashed password, and re-creating the same phone fails. -/
theorem create_user_spec_witness :
    (∃ u : UserRecord,
      create_user [(("050"), demo_user_050)]
          (fun p => String.append p ("#")) ("t1") ("051") ("pw") none
        = (.ok u, [(("050"), demo_user_050), (("051"), u)])
      ∧ u.user_id = 5 ∧ u.password_hash = ("pw#") ∧ u.verified = false)
    ∧ create_user [(("050"), demo_user_050)]
          (fun p => String.append p ("#")) ("t1") ("050") ("pw") none
        = (.error ("User already exists"), [(("050"), demo_user_050)]) := by
  constructor
  · obtain ⟨u, h1, h2, _, _, _, h5, h6, _⟩ :=
      create_user_spec.2 [(("050"), demo_user_050)]
        (fun p => String.append p ("#")) ("t1") ("051") ("pw") none
        (by intro kv hkv; simp at hkv; subst hkv; decide)
    exact ⟨u, h1, by rw [h2]; rfl, by rw [h5]; rfl, h6⟩
  · exact (create_user_spec.1 [(("050"), demo_user_050)]
      (fun p => String.append p ("#")) ("t1") ("050") ("pw") none).mp
      ⟨(("050"), demo_user_050), List.mem_singleton_self _, rfl⟩

/-- C10: `update_item` with an id matching no item of the active session
raises the item-not-found error and leaves the session value and the
persisted file untouched; with a matching id it rewrites exactly the first
matching item's description and notes, leaving every other part of the
session unchanged. -/
theorem update_item_spec :
    (∀ (st : MgrState) (s : ReportSession) (tid d n : String),
        (get_session st).1 = some s → (∀ i ∈ s.items, i.id ≠ tid) →
        update_item st tid d n = (.error ("Item not found"), (get_session st).2)
          ∧ ((get_session st).2).file = st.file
          ∧ (get_session ((get_session st).2)).1 = some s)
    ∧ (∀ (st : MgrState) (s : ReportSession) (tid d n : String) (k : Nat)
        (hk : k < s.items.length),
        (get_session st).1 = some s →
        (s.items.get ⟨k, hk⟩).id = tid →
        (∀ j (hj : j < k), (s.items.get ⟨j, Nat.lt_trans hj hk⟩).id ≠ tid) →
        ∃ s2 : ReportSession,
          update_item st tid d n = (.ok (), { mem := some s2, file := some s2 })
          ∧ s2.items = s.items.set k { s.items.get ⟨k, hk⟩ with description := d, notes := n }
          ∧ s2.photos = s.photos
          ∧ s2.attendees = s.attendees
          ∧ s2.distribution_list = s.distribution_list
          ∧ s2.user_id = s.user_id
          ∧ s2.created_at = s.created_at
          ∧ s2.location = s.location
          ∧ s2.title = s.title
          ∧ s2.template_key = s.template_key) := by
  constructor
  · intro st s tid d n h hno
    refine ⟨?_, (get_session_fst_some st s h).2, ?_⟩
    · unfold update_item
      simp only [h, update_first_item_none s.items tid d n hno]
    · rw [get_session_stable st, h]
  · intro st s tid d n k hk h hmatch hfirst
    refine ⟨{ s with
              items := s.items.set k
                         { s.items.get ⟨k, hk⟩ with description := d, notes := n } },
      ?_, rfl, rfl, rfl, rfl, rfl, rfl, rfl, rfl, rfl⟩
    unfold update_item
    simp only [h, update_first_item_at s.items tid d n k hk hmatch hfirst]

/-- C10 witness: on a two-item session, updating a bogus id errors and
leaves the state alone, and updating the second item rewrites only it. -/
theorem update_item_spec_witness :
    (update_item demo_two_item_state ("zz") ("x") ("y")).1 = .error ("Item not found")
    ∧ (((update_item demo_two_item_state ("b") ("x") ("y")).2).mem.map
          (fun s => s.items.map (fun i => (i.id, i.description, i.notes))))
        = some [(("a"), ("d1"), ("")), (("b"), ("x"), ("y"))] := by
  constructor
  · have h := (update_item_spec.1 demo_two_item_state demo_two_item_session
      ("zz") ("x") ("y") rfl (by decide)).1
    rw [h]
  · obtain ⟨s2, h1, h2, _⟩ := update_item_spec.2 demo_two_item_state demo_two_item_session
      ("b") ("x") ("y") 1 (by decide) rfl (by decide) (by decide)
    rw [h1]
    simp only [Option.map_some']
    rw [h2]
    rfl

theorem append_prefix_cancel (l s t : List String) (h : l ++ s <+: l ++ t) : s <+: t := by
  obtain ⟨r, hr⟩ := h
  rw [List.append_assoc] at hr
  exact ⟨r, List.append_cancel_left hr⟩

/-- C1 counterexample: saving a session whose only photo's source file does
not exist on disk keeps the photo's temp-directory path in the stored
snapshot, so the snapshot's paths do not all resolve inside the report's
photos directory. -/
theorem save_report_temp_path_counterexample :
    ¬ (∀ d ∈ ((save_report empty_archive [] 1 ("r1") ("t1")
          demo_photo_session).2).dirs,
        ∀ p ∈ d.2.photos,
          path_in_dir (user_report_photos_dir 1 d.1) p.file_path
            ∧ ¬ path_in_dir (user_temp_dir 1) p.file_path) := by
  decide

/-- C1 amended: after `save_report`, the stored snapshot rewrites the path of
every photo whose source file exists to a location inside the report's own
photos directory (never the shared temp directory), while a photo whose
source file is missing at save time keeps its original path unchanged. -/
theorem save_report_photo_paths :
    ∀ (st : ArchiveState) (fs : List (List String)) (uid : Int) (rid ca : String)
      (session : ReportSession),
      ∃ snap : ReportSession,
        ((save_report st fs uid rid ca session).2).dirs = (rid, snap) :: st.dirs
        ∧ (∀ p ∈ session.photos, p.file_path ∈ fs →
            ({ p with file_path := user_report_photos_dir uid rid
                        ++ [path_name p.file_path] } : ReportPhoto) ∈ snap.photos)
        ∧ (∀ p ∈ session.photos, p.file_path ∉ fs → p ∈ snap.photos)
        ∧ (∀ q ∈ snap.photos,
            (path_in_dir (user_report_data_dir uid rid) q.file_path
              ∧ path_in_dir (user_report_photos_dir uid rid) q.file_path
              ∧ ¬ path_in_dir (user_temp_dir uid) q.file_path)
            ∨ (q ∈ session.photos ∧ q.file_path ∉ fs)) := by
  intro st fs uid rid ca session
  refine ⟨_, rfl, ?_, ?_, ?_⟩
  · intro p hp hfs
    have h := List.mem_map_of_mem (fun p : ReportPhoto =>
      if p.file_path ∈ fs
      then { p with file_path := user_report_photos_dir uid rid ++ [path_name p.file_path] }
      else p) hp
    simpa [hfs] using h
  · intro p hp hfs
    have h := List.mem_map_of_mem (fun p : ReportPhoto =>
      if p.file_path ∈ fs
      then { p with file_path := user_report_photos_dir uid rid ++ [path_name p.file_path] }
      else p) hp
    simpa [hfs] using h
  · intro q hq
    rw [List.mem_map] at hq
    obtain ⟨p, hp, hfq⟩ := hq
    by_cases hfs : p.file_path ∈ fs
    · left
      rw [← hfq]
      simp only [if_pos hfs]
      refine ⟨?_, ?_, ?_⟩
      · show user_report_data_dir uid rid <+: _
        show user_report_data_dir uid rid <+:
          (user_report_data_dir uid rid ++ [("photos")]) ++ [path_name p.file_path]
        rw [List.append_assoc]
        exact List.prefix_append _ _
      · exact List.prefix_append _ _
      · intro hpre
        have hform : user_report_photos_dir uid rid ++ [path_name p.file_path]
            = user_dir uid ++ ([("reports")] ++ ([rid] ++ ([("photos")]
                ++ [path_name p.file_path]))) := by
          simp [user_report_photos_dir, user_report_data_dir, user_reports_dir]
        unfold path_in_dir user_temp_dir at hpre
        rw [hform] at hpre
        have hc := append_prefix_cancel (user_dir uid) _ _ hpre
        rw [List.singleton_append, List.singleton_append, List.cons_prefix_cons] at hc
        have : ("temp") = ("reports") := hc.1
        simp at this
    · right
      rw [← hfq]
      simp only [if_neg hfs]
      exact ⟨hp, hfs⟩

/-- C1 witness: with the photo's source file present on disk, the stored
snapshot holds the photo rewritten into the report's photos directory. -/
theorem save_report_photo_paths_witness :
    ∃ snap : ReportSession,
      ((save_report empty_archive [user_temp_dir 1 ++ [("pic.jpg")]] 1 ("r1") ("t1")
          demo_photo_session).2).dirs = (("r1"), snap) :: []
      ∧ ({ demo_temp_photo with
            file_path := user_report_photos_dir 1 ("r1")
                           ++ [path_name demo_temp_photo.file_path] } : ReportPhoto)
          ∈ snap.photos := by
  obtain ⟨snap, h1, h2, h3, h4⟩ := save_report_photo_paths empty_archive
    [user_temp_dir 1 ++ [("pic.jpg")]] 1 ("r1") ("t1") demo_photo_session
  exact ⟨snap, h1, h2 demo_temp_photo (List.mem_singleton_self _)
    (List.mem_singleton.mpr rfl)⟩

/-- C8 counterexample: supplying a whitespace-only `item_id` with an active
session leaves the stored photo's `item_id` as the empty string rather than
clearing it to null, although it matches no live item. -/
theorem add_photo_blank_item_counterexample :
    ¬ (∀ r, add_photo_route { mem := some demo_draft_3, file := some demo_draft_3 }
          ("ph1") (some (" ")) (user_temp_dir 3 ++ [("p.jpg")]) = .ok r →
        r.1.item_id = none) := by
  intro hclaim
  have h := hclaim _ rfl
  exact absurd h (by decide)

/-- C8 amended: a supplied `item_id` that is non-empty after trimming and
matches no live item is cleared to null while the photo is still added; an
`item_id` matching a live item is kept (trimmed) on the stored photo; a
whitespace-only `item_id` is stored as the empty string. -/
theorem add_photo_item_policy :
    (∀ (st : MgrState) (s : ReportSession) (pid v : String) (path : List String),
        (get_session st).1 = some s → pyStrip v ≠ ("") →
        (∀ i ∈ s.items, i.id ≠ pyStrip v) →
        ∃ st2, add_photo_route st pid (some v) path
            = .ok ({ id := pid, file_path := path, item_id := none }, st2)
          ∧ (get_session st2).1
              = some { s with photos := s.photos
                  ++ [{ id := pid, file_path := path, item_id := none }] })
    ∧ (∀ (st : MgrState) (s : ReportSession) (pid v : String) (path : List String),
        (get_session st).1 = some s → v ≠ ("") →
        (∃ i ∈ s.items, i.id = pyStrip v) →
        ∃ st2, add_photo_route st pid (some v) path
            = .ok ({ id := pid, file_path := path, item_id := some (pyStrip v) }, st2)
          ∧ (get_session st2).1
              = some { s with photos := s.photos
                  ++ [{ id := pid, file_path := path, item_id := some (pyStrip v) }] })
    ∧ (∀ (st : MgrState) (s : ReportSession) (pid v : String) (path : List String),
        (get_session st).1 = some s → v ≠ ("") → pyStrip v = ("") →
        ∃ st2, add_photo_route st pid (some v) path
            = .ok ({ id := pid, file_path := path, item_id := some ("") }, st2)) := by
  refine ⟨?_, ?_, ?_⟩
  · intro st s pid v path h hne hno
    have hmem := (get_session_fst_some st s h).1
    have hv : v ≠ ("") := fun hv0 => hne (by rw [hv0]; rfl)
    have hany : s.items.any (fun it => it.id == pyStrip v) = false := by
      rw [List.any_eq_false]
      intro it hit
      simp [hno it hit]
    refine ⟨{ mem := some { s with photos := s.photos ++ [{ id := pid, file_path := path, item_id := none }] }, file := some { s with photos := s.photos ++ [{ id := pid, file_path := path, item_id := none }] } }, ?_, rfl⟩
    unfold add_photo_route add_photo
    simp [h, hmem, hv, hne, hany]
    exact ⟨rfl, rfl⟩
  · intro st s pid v path h hv hex
    have hmem := (get_session_fst_some st s h).1
    have hany : s.items.any (fun it => it.id == pyStrip v) = true := by
      rw [List.any_eq_true]
      obtain ⟨i, hi, he⟩ := hex
      exact ⟨i, hi, by simp [he]⟩
    refine ⟨{ mem := some { s with photos := s.photos ++ [{ id := pid, file_path := path, item_id := some (pyStrip v) }] }, file := some { s with photos := s.photos ++ [{ id := pid, file_path := path, item_id := some (pyStrip v) }] } }, ?_, rfl⟩
    by_cases hts : pyStrip v = ("")
    · unfold add_photo_route add_photo
      simp [h, hmem, hv, hts]
      exact ⟨rfl, rfl⟩
    · unfold add_photo_route add_photo
      simp [h, hmem, hv, hts, hany]
      exact ⟨rfl, rfl⟩
  · intro st s pid v path h hv hts
    have hmem := (get_session_fst_some st s h).1
    refine ⟨{ mem := some { s with photos := s.photos ++ [{ id := pid, file_path := path, item_id := some ("") }] }, file := some { s with photos := s.photos ++ [{ id := pid, file_path := path, item_id := some ("") }] } }, ?_⟩
    unfold add_photo_route add_photo
    simp [h, hmem, hv, hts]
    exact ⟨rfl, rfl⟩

/-- C8 witness: a stale non-empty `item_id` is cleared to null while the
photo is added, and an `item_id` naming a live item is kept. -/
theorem add_photo_item_policy_witness :
    (∃ st2, add_photo_route demo_two_item_state ("ph1") (some ("zz")) []
        = .ok ({ id := ("ph1"), file_path := [], item_id := none }, st2))
    ∧ (∃ st2, add_photo_route demo_two_item_state ("ph2") (some ("b")) []
        = .ok ({ id := ("ph2"), file_path := [], item_id := some (pyStrip ("b")) }, st2)) := by
  constructor
  · obtain ⟨st2, h1, h2⟩ := add_photo_item_policy.1 demo_two_item_state demo_two_item_session
      ("ph1") ("zz") [] rfl (by decide) (by decide)
    exact ⟨st2, h1⟩
  · obtain ⟨st2, h1, h2⟩ := add_photo_item_policy.2.1 demo_two_item_state demo_two_item_session
      ("ph2") ("b") [] rfl (by decide) ⟨demo_item_b, by decide, by decide⟩
    exact ⟨st2, h1⟩

theorem findIdxChar_found (c : Char) :
    ∀ (cs : List Char) (i : Nat), findIdxChar c cs = some i →
      cs.get? i = some c ∧ ∀ j, j < i → cs.get? j ≠ some c := by
  intro cs
  induction cs with
  | nil => intro i h; exact Option.noConfusion h
  | cons x xs ih =>
    intro i h
    by_cases hx : x = c
    · simp only [findIdxChar, if_pos hx] at h
      injection h with h0
      subst h0
      exact ⟨by simp [hx], fun j hj => absurd hj (Nat.not_lt_zero j)⟩
    · simp only [findIdxChar, if_neg hx] at h
      cases hxs : findIdxChar c xs with
      | none => rw [hxs] at h; exact Option.noConfusion h
      | some i0 =>
        rw [hxs] at h
        injection h with h1
        subst h1
        obtain ⟨hget, hfirst⟩ := ih i0 hxs
        refine ⟨by simpa using hget, ?_⟩
        intro j hj
        cases j with
        | zero => simpa using hx
        | succ j0 =>
          simpa using hfirst j0 (Nat.lt_of_succ_lt_succ hj)

theorem findIdxChar_le (c : Char) :
    ∀ (cs : List Char) (k : Nat), cs.get? k = some c →
      ∃ i, findIdxChar c cs = some i ∧ i ≤ k := by
  intro cs
  induction cs with
  | nil => intro k h; simp at h
  | cons x xs ih =>
    intro k h
    by_cases hx : x = c
    · exact ⟨0, by simp [findIdxChar, hx], Nat.zero_le k⟩
    · cases k with
      | zero =>
        rw [List.get?_cons_zero] at h
        injection h with h0
        exact absurd h0 hx
      | succ k0 =>
        rw [List.get?_cons_succ] at h
        obtain ⟨i0, hi0, hle⟩ := ih k0 h
        exact ⟨i0 + 1, by simp [findIdxChar, hx, hi0], Nat.succ_le_succ hle⟩

theorem get?_reverse_idx (cs : List Char) (i : Nat) (h : i < cs.length) :
    cs.reverse.get? i = cs.get? (cs.length - 1 - i) := by
  rw [List.get?_eq_getElem?, List.get?_eq_getElem?, List.getElem?_reverse h]

theorem rfindIdxChar_found (c : Char) (cs : List Char) (m : Nat)
    (h : rfindIdxChar c cs = some m) :
    cs.get? m = some c ∧ ∀ k, m < k → cs.get? k ≠ some c := by
  unfold rfindIdxChar at h
  cases hr : findIdxChar c cs.reverse with
  | none => rw [hr] at h; exact Option.noConfusion h
  | some i =>
    rw [hr] at h
    injection h with hm
    obtain ⟨hget, _⟩ := findIdxChar_found c cs.reverse i hr
    have hilt : i < cs.length := by
      have := List.get?_eq_some.mp hget
      obtain ⟨hl, _⟩ := this
      simpa using hl
    constructor
    · rw [get?_reverse_idx cs i hilt] at hget
      rw [← hm]
      exact hget
    · intro k hk hcontra
      have hklt : k < cs.length := by
        have := List.get?_eq_some.mp hcontra
        obtain ⟨hl, _⟩ := this
        exact hl
      have hrev : cs.reverse.get? (cs.length - 1 - k) = some c := by
        rw [get?_reverse_idx cs (cs.length - 1 - k) (by omega)]
        have : cs.length - 1 - (cs.length - 1 - k) = k := by omega
        rw [this]
        exact hcontra
      obtain ⟨i2, hi2, hle2⟩ := findIdxChar_le c cs.reverse _ hrev
      rw [hr] at hi2
      injection hi2 with hi2e
      subst hi2e
      have hm2 : cs.length - 1 - i = m := hm
      omega

/-- C6: reading the contacts store never raises for any byte content of the
backing file: strict parses are returned as-is; on a strict-parse failure
the result is the validated recovery from the maximal first-to-last bracket
slice of the raw text, immediately re-persisted to heal the file; and when
recovery also fails the file is discarded and the empty list returned —
every returned entry comes from a validated dict, never partial garbage. -/
theorem get_contacts_spec :
    (∀ file : Option PyBytes,
      ∃ result : List Contact × Option PyBytes, get_contacts file = result
        ∧ ((∃ content, file = some (.utf8 content)
              ∧ strict_parse_contacts content = .ok result.1 ∧ result.2 = file)
          ∨ (∃ content, file = some (.utf8 content)
              ∧ (strict_parse_contacts content).isOk = false
              ∧ recover_from_text content = some result.1
              ∧ result.2 = some (.utf8 (save_contacts_text result.1)))
          ∨ (result.1 = [] ∧ result.2 = none)))
    ∧ (∀ (content : String) (rec : List Contact), recover_from_text content = some rec →
        ∃ istart iend j elems,
          findIdxChar '[' content.data = some istart
          ∧ rfindIdxChar ']' content.data = some iend
          ∧ istart < iend
          ∧ (∀ k, k < istart → content.data.get? k ≠ some '[')
          ∧ (∀ k, iend < k → content.data.get? k ≠ some ']')
          ∧ pyJsonLoads (String.mk ((content.data.drop istart).take (iend + 1 - istart)))
              = .ok j
          ∧ pyIterElems j = .ok elems
          ∧ (elems.filter isDict).mapM contactOfJson = .ok rec) := by
  constructor
  · intro file
    match file with
    | none => exact ⟨([], none), rfl, Or.inr (Or.inr ⟨rfl, rfl⟩)⟩
    | some PyBytes.invalid => exact ⟨([], none), rfl, Or.inr (Or.inr ⟨rfl, rfl⟩)⟩
    | some (PyBytes.utf8 content) =>
      cases hs : strict_parse_contacts content with
      | ok cs =>
        refine ⟨(cs, some (.utf8 content)), ?_, Or.inl ⟨content, rfl, hs, rfl⟩⟩
        simp only [get_contacts, hs]
      | error e =>
        cases hr : recover_from_text content with
        | some recovered =>
          refine ⟨(recovered, some (.utf8 (save_contacts_text recovered))), ?_,
            Or.inr (Or.inl ⟨content, rfl, by rw [hs]; rfl, hr, rfl⟩)⟩
          simp only [get_contacts, hs, hr]
        | none =>
          refine ⟨([], none), ?_, Or.inr (Or.inr ⟨rfl, rfl⟩)⟩
          simp only [get_contacts, hs, hr]
  · intro content rec h
    by_cases hempty : content = ("")
    · rw [recover_from_text, if_pos hempty] at h
      exact Option.noConfusion h
    · simp only [recover_from_text, if_neg hempty] at h
      cases hf : findIdxChar '[' content.data with
      | none => rw [hf] at h; exact Option.noConfusion h
      | some istart =>
        cases hrf : rfindIdxChar ']' content.data with
        | none => rw [hf, hrf] at h; exact Option.noConfusion h
        | some iend =>
          simp only [hf, hrf] at h
          by_cases hlt : istart < iend
          · rw [if_pos hlt] at h
            cases hj : pyJsonLoads (String.mk
                ((content.data.drop istart).take (iend + 1 - istart))) with
            | error e => rw [hj] at h; exact Option.noConfusion h
            | ok j =>
              simp only [hj] at h
              cases hiter : pyIterElems j with
              | error e => rw [hiter] at h; exact Option.noConfusion h
              | ok elems =>
                simp only [hiter] at h
                cases hmap : (elems.filter isDict).mapM contactOfJson with
                | error e => rw [hmap] at h; exact Option.noConfusion h
                | ok recovered =>
                  rw [hmap] at h
                  injection h with hrec
                  subst hrec
                  exact ⟨istart, iend, j, elems, rfl, rfl, hlt,
                    (findIdxChar_found '[' content.data istart hf).2,
                    (rfindIdxChar_found ']' content.data iend hrf).2,
                    hj, hiter, hmap⟩
          · rw [if_neg hlt] at h
            exact Option.noConfusion h

/-- C6 witness: a contacts file with leading garbage around a bracketed list
holding one valid entry recovers exactly that entry from the maximal
bracket slice, and `get_contacts` heals the file with it. -/
theorem get_contacts_spec_witness :
    (∃ istart iend j elems,
      findIdxChar '[' (("x[\x7b\"id\":1,\"name\":2,\"email\":3\x7d]") : String).data
          = some istart
      ∧ rfindIdxChar ']' (("x[\x7b\"id\":1,\"name\":2,\"email\":3\x7d]") : String).data
          = some iend
      ∧ istart < iend
      ∧ (∀ k, k < istart →
          (("x[\x7b\"id\":1,\"name\":2,\"email\":3\x7d]") : String).data.get? k ≠ some '[')
      ∧ (∀ k, iend < k →
          (("x[\x7b\"id\":1,\"name\":2,\"email\":3\x7d]") : String).data.get? k ≠ some ']')
      ∧ pyJsonLoads (String.mk
          (((("x[\x7b\"id\":1,\"name\":2,\"email\":3\x7d]") : String).data.drop istart).take
            (iend + 1 - istart))) = .ok j
      ∧ pyIterElems j = .ok elems
      ∧ (elems.filter isDict).mapM contactOfJson
          = .ok [{ id := .num ("1"), name := .num ("2"), email := .num ("3") }])
    ∧ (∃ result, get_contacts (some (.utf8 ("x[\x7b\"id\":1,\"name\":2,\"email\":3\x7d]")))
          = result
        ∧ result.1 = [{ id := .num ("1"), name := .num ("2"), email := .num ("3") }]) := by
  constructor
  · exact get_contacts_spec.2 ("x[\x7b\"id\":1,\"name\":2,\"email\":3\x7d]")
      [{ id := .num ("1"), name := .num ("2"), email := .num ("3") }] (by rfl)
  · obtain ⟨result, h1, h2⟩ :=
      get_contacts_spec.1 (some (.utf8 ("x[\x7b\"id\":1,\"name\":2,\"email\":3\x7d]")))
    exact ⟨result, h1, by rw [← h1]; rfl⟩

end DocBot
